import Mathlib

/-!
Verification development for the knotcity/svaas-sdk TypeScript SDK.

The SDK's main class (`src/lib.ts`, class `KnotSVaaS`) signs every outbound
HTTP request with an ECDSA-based Authorization header (via an axios request
interceptor) and verifies inbound webhook signatures
(`checkKnotEventSignature`).  This file gives a shallow embedding of that
code:

* JavaScript dynamic values are embedded as the inductive `JsVal`
  (mutually with `JsFields` for object field lists, so that every function
  is structurally recursive and kernel-evaluable).
* The axios interceptor (`lib.ts` lines 149-176) is `interceptRequest`.
* `checkKnotEventSignature` (`lib.ts` lines 674-705) is embedded one to one,
  with the surrounding try/catch represented by mapping every `Except.error`
  of a sub-computation to the result `false`.
* The external `@knotcity/http-request-signer` package is not part of this
  repository; its three entry points (`generateAuthorization`,
  `parseAuthorizationHeader`, `verifyAuthorization`) are modelled from the
  spec (sections 4.1, 4.2 and 6): the canonical signing string, the
  `Signature keyId="...",algorithm="...",headers="...",signature="..."` wire
  format, and a symbolic stand-in for the ECDSA primitive in which a
  signature determines (public key, message) and verification recomputes the
  expected signature.
* The request helpers (`makeRequest`, `makeStationRequest`,
  `makeVehicleRequest`, lines 716-782) and the typed API methods the claims
  mention are embedded over an explicit `Transport` parameter, so that
  "fails before any network call" is expressible as an equation that holds
  for every transport.
-/

namespace SVaaS

mutual

/-- JavaScript dynamic values, restricted to the shapes the SDK manipulates.
Objects carry their fields through the mutual inductive `JsFields` so that
all recursion over values stays structural. -/
inductive JsVal where
  | str (s : String)
  | num (q : ℚ)
  | boolean (b : Bool)
  | jsNull
  | undefined
  | obj (fields : JsFields)
deriving DecidableEq

/-- Field list of a JavaScript object literal (insertion ordered). -/
inductive JsFields where
  | nil
  | cons (name : String) (value : JsVal) (rest : JsFields)
deriving DecidableEq

end

/-- ASCII lower casing of a character, as `toLocaleLowerCase` behaves on the
ASCII header names the SDK manipulates. -/
def lowerChar (c : Char) : Char :=
  if 'A' ≤ c ∧ c ≤ 'Z' then Char.ofNat (c.toNat + 32) else c

/-- ASCII lower casing of a string (JavaScript `toLowerCase` /
`toLocaleLowerCase` on the ASCII fragment). -/
def strLower (s : String) : String := String.mk (s.data.map lowerChar)

/-- Length of a string in UTF-16 code units: this is what the JavaScript
`String.prototype.length` getter returns (characters above U+FFFF count as a
surrogate pair, i.e. two units). -/
def utf16Len (s : String) : Nat :=
  s.data.foldl (fun n c => n + (if c.val < 0x10000 then 1 else 2)) 0

/-- JavaScript truthiness of a value (`if (v)`), used by the source at
`c.data ? ... : 0`, `if (id)` and `options.stationsEndpoint || default`. -/
def jsTruthy : JsVal → Bool
  | .str s => !(s == "")
  | .num q => !(q == 0)
  | .boolean b => b
  | .jsNull => false
  | .undefined => false
  | .obj _ => true

/-- JavaScript `typeof` (note `typeof null === "object"`). -/
def jsTypeof : JsVal → String
  | .str _ => "string"
  | .num _ => "number"
  | .boolean _ => "boolean"
  | .jsNull => "object"
  | .undefined => "undefined"
  | .obj _ => "object"

/-- Decimal rendering of a JavaScript number.  The SDK only ever serializes
integral ids and integral content lengths; the non-integral fallback is a
plain `num/den` rendering and is exercised by no claim. -/
def numToString (q : ℚ) : String :=
  if q.den = 1 then toString q.num else toString q.num ++ "/" ++ toString q.den

/-- JavaScript string coercion `String(v)` for the value shapes of `JsVal`. -/
def jsValToString : JsVal → String
  | .str s => s
  | .num q => numToString q
  | .boolean b => if b then "true" else "false"
  | .jsNull => "null"
  | .undefined => "undefined"
  | .obj _ => "[object Object]"

/-- Property lookup in an object field list (first binding wins, as
JavaScript object keys are unique). -/
def jsFieldsFind : JsFields → String → Option JsVal
  | .nil, _ => none
  | .cons n v r, name => if n == name then some v else jsFieldsFind r name

/-- JavaScript property access `v[name]`: `undefined` on a missing property
or a non-object receiver (property access on `null` is modelled separately
where the source can reach it). -/
def jsGetField (v : JsVal) (name : String) : JsVal :=
  match v with
  | .obj fs =>
    match jsFieldsFind fs name with
    | some x => x
    | none => .undefined
  | _ => .undefined

/-- Hexadecimal digit character (lower case), for JSON control escapes. -/
def hexDigitChar (n : Nat) : Char :=
  if n < 10 then Char.ofNat (48 + n) else Char.ofNat (87 + n)

/-- JSON string escaping as `JSON.stringify` performs it: double quote,
backslash and the control characters are escaped, everything else (including
non-ASCII) is emitted verbatim. -/
def escapeJsonChar (c : Char) : List Char :=
  if c = '"' then ['\\', '"']
  else if c = '\\' then ['\\', '\\']
  else if c = '\x08' then ['\\', 'b']
  else if c = '\x09' then ['\\', 't']
  else if c = '\x0a' then ['\\', 'n']
  else if c = '\x0c' then ['\\', 'f']
  else if c = '\x0d' then ['\\', 'r']
  else if c.val < 32 then ['\\', 'u', '0', '0', hexDigitChar (c.toNat / 16), hexDigitChar (c.toNat % 16)]
  else [c]

/-- Quoted JSON string literal, as a character list. -/
def jsonQuote (s : String) : List Char :=
  '"' :: (s.data.map escapeJsonChar).flatten ++ ['"']

/-- Comma-join a list of character-list chunks. -/
def joinWithComma : List (List Char) → List Char
  | [] => []
  | [x] => x
  | x :: xs => x ++ ',' :: joinWithComma xs

mutual

/-- Model of `JSON.stringify` on the value shapes the SDK serializes
(objects, strings, numbers, booleans, null).  Properties whose value is
`undefined` are skipped, exactly as `JSON.stringify` does.  A top-level
`undefined` renders as the text "undefined", matching how the source only
ever observes it (inside a template literal). -/
def jsonStringify : JsVal → String
  | .str s => String.mk (jsonQuote s)
  | .num q => numToString q
  | .boolean b => if b then "true" else "false"
  | .jsNull => "null"
  | .undefined => "undefined"
  | .obj fs => String.mk ('{' :: joinWithComma (jsonFieldEntries fs) ++ ['}'])

/-- Serialized `"name":value` entries of an object, skipping
`undefined`-valued properties. -/
def jsonFieldEntries : JsFields → List (List Char)
  | .nil => []
  | .cons n v r =>
    match v with
    | .undefined => jsonFieldEntries r
    | _ => (jsonQuote n ++ ':' :: (jsonStringify v).data) :: jsonFieldEntries r

end

/-- Header-map update `c.headers[k] = v`: JavaScript object assignment
replaces an existing key in place (keys are case sensitive) and otherwise
appends the binding. -/
def setHeader (hs : List (String × JsVal)) (k : String) (v : JsVal) : List (String × JsVal) :=
  if hs.any (fun p => p.1 == k) then hs.map (fun p => if p.1 == k then (k, v) else p)
  else hs ++ [(k, v)]

/-- Case-insensitive header lookup (first match), shared by the signer and
the verifier when they pull declared header values. -/
def getHeaderCI (hs : List (String × JsVal)) (name : String) : Option JsVal :=
  (hs.find? (fun p => strLower p.1 == strLower name)).map (fun p => p.2)

/-- The `Object.entries(...).find(e => e[0].toLocaleLowerCase() ===
'authorization')` step of `checkKnotEventSignature` (lib.ts line 679). -/
def authLookup (hs : List (String × JsVal)) : Option (String × JsVal) :=
  hs.find? (fun p => strLower p.1 == "authorization")

/-- Modelled from the spec: the public key matching a private key, for the
symbolic stand-in of the external ECDSA primitive (the
`@knotcity/http-request-signer` package is not part of this repository). -/
def pubOf (privateKey : String) : String := "public:" ++ privateKey

/-- Escaping for the symbolic signature text so that it never contains a
double quote (the real scheme emits base64, whose alphabet is also
quote-free); `%` is escaped to keep the encoding injective. -/
def escSigChar (c : Char) : List Char :=
  if c = '%' then ['%', '2', '5']
  else if c = '"' then ['%', '2', '2']
  else [c]

/-- Quote-free encoding of a string for embedding inside the signature. -/
def encStr (s : String) : List Char := (s.data.map escSigChar).flatten

/-- Modelled from the spec: symbolic signature value determined by the
public key and the exact signing-string bytes.  Verification recomputes
this value from the verifier's public key and reconstructed signing string
and compares for equality, which models a sound and deterministic
signature scheme. -/
def sigFromPub (publicKey message : String) : String :=
  String.mk ("sig(".data ++ (encStr publicKey ++ ('.' :: (encStr message ++ [')']))))

/-- Modelled from the spec: signing with the private key produces the
signature that the matching public key accepts. -/
def mkSig (privateKey message : String) : String := sigFromPub (pubOf privateKey) message

/-- Serialized `name="value"` pair of the Authorization header wire format. -/
def serPair (n v : String) : List Char := n.data ++ '=' :: '"' :: v.data ++ ['"']

/-- Comma-separated serialized pair list of the Authorization header. -/
def serPairs : List (String × String) → List Char
  | [] => []
  | [p] => serPair p.1 p.2
  | p :: ps => serPair p.1 p.2 ++ ',' :: serPairs ps

/-- Read characters up to (and consuming) the `stop` character, failing on
end of input or on any character from `bad`. -/
def spanTo (stop : Char) (bad : List Char) : List Char → Option (List Char × List Char)
  | [] => none
  | c :: rest =>
    if c = stop then some ([], rest)
    else if c ∈ bad then none
    else
      match spanTo stop bad rest with
      | some (v, r) => some (c :: v, r)
      | none => none

/-- Fuelled parser for the comma-separated `name="value"` pair list (the
fuel only bounds the number of pairs; the top-level wrapper supplies more
fuel than any input can need, so the fuel never changes the result). -/
def parsePairsF : Nat → List Char → Option (List (String × String))
  | 0, _ => none
  | fuel + 1, l =>
    match spanTo '=' ['"', ','] l with
    | none => none
    | some (nm, rest1) =>
      if nm = [] then none
      else
        match rest1 with
        | '"' :: rest2 =>
          match spanTo '"' [] rest2 with
          | none => none
          | some (v, rest3) =>
            match rest3 with
            | [] => some [(String.mk nm, String.mk v)]
            | ',' :: rest4 =>
              match parsePairsF fuel rest4 with
              | some ps => some ((String.mk nm, String.mk v) :: ps)
              | none => none
            | _ => none
        | _ => none

/-- Strip a leading literal character sequence, or fail. -/
def dropLeading : List Char → List Char → Option (List Char)
  | [], l => some l
  | _ :: _, [] => none
  | p :: ps, c :: cs => if c = p then dropLeading ps cs else none

/-- Split a character list on single spaces, JavaScript
`String.prototype.split(' ')` style (an empty input yields one empty
group). -/
def splitSp : List Char → List (List Char)
  | [] => [[]]
  | c :: rest =>
    if c = ' ' then [] :: splitSp rest
    else
      match splitSp rest with
      | [] => [[c]]
      | g :: gs => (c :: g) :: gs

/-- Components parsed out of an Authorization header; `algorithm` and
`hash` are optional on the wire (older signers omit them). -/
structure ParsedAuth where
  keyId : String
  algorithm : Option String
  hash : Option String
  headers : List String
  signature : String
deriving DecidableEq

/-- First pair with the given name, if any. -/
def lookupField (ps : List (String × String)) (name : String) : Option String :=
  (ps.find? (fun p => p.1 == name)).map (fun p => p.2)

/-- Field names accepted by the Authorization header wire format. -/
def knownAuthFields : List String := ["keyId", "algorithm", "hash", "headers", "signature"]

/-- Modelled from the spec: `parseAuthorizationHeader` of the external
`@knotcity/http-request-signer` package.  It parses the wire format
`Signature keyId="...",algorithm="...",headers="h1 h2 ...",signature="..."`
(section 6 of the spec); any malformed structure, unknown field or missing
required field is an exception, which the embedding represents as
`Except.error`. -/
def parseAuthorizationHeader (s : String) : Except String ParsedAuth :=
  match dropLeading "Signature ".data s.data with
  | none => .error "invalid authorization scheme"
  | some body =>
    match parsePairsF (body.length + 1) body with
    | none => .error "malformed authorization header"
    | some ps =>
      if ps.any (fun p => !(knownAuthFields.contains p.1)) then .error "unknown authorization field"
      else
        match lookupField ps "keyId", lookupField ps "headers", lookupField ps "signature" with
        | some k, some hv, some sg =>
          .ok { keyId := k, algorithm := lookupField ps "algorithm", hash := lookupField ps "hash",
                headers := (splitSp hv.data).map String.mk, signature := sg }
        | _, _, _ => .error "missing authorization field"

/-- Request descriptor handed to the signer (headers, method, path). -/
structure RequestDescriptor where
  headers : List (String × JsVal)
  method : String
  path : String

/-- Signing parameters of `generateAuthorization` (lib.ts lines 163-169). -/
structure SigningParams where
  algorithm : String
  hash : String
  headers : List String
  keyId : String
  privateKey : String

/-- Join a list of strings with a separator. -/
def joinSep (sep : String) : List String → String
  | [] => ""
  | [x] => x
  | x :: xs => x ++ sep ++ joinSep sep xs

/-- Modelled from the spec (section 4.1 step 1): one line of the canonical
signing string.  Header names are lower-cased; the `(request-target)`
pseudo-header is synthesized from the lower-cased method and the path; a
declared header that is absent from the header map is a failure. -/
def signingLine (hs : List (String × JsVal)) (method path name : String) : Option String :=
  let n := strLower name
  if n = "(request-target)" then some (n ++ ": " ++ strLower method ++ " " ++ path)
  else
    match getHeaderCI hs n with
    | some v => some (n ++ ": " ++ jsValToString v)
    | none => none

/-- Map a fallible function over a list, failing if any element fails. -/
def mapOpt (f : α → Option β) : List α → Option (List β)
  | [] => some []
  | a :: as =>
    match f a, mapOpt f as with
    | some b, some bs => some (b :: bs)
    | _, _ => none

/-- Modelled from the spec (section 4.1 steps 1-2): the canonical signing
string, newline-joined lines in the declared header order. -/
def buildSigningString (names : List String) (hs : List (String × JsVal)) (method path : String) :
    Option String :=
  match mapOpt (signingLine hs method path) names with
  | some lines => some (joinSep "\n" lines)
  | none => none

/-- Modelled from the spec (section 4.1): `generateAuthorization` of the
external signer package: build the signing string, sign it, and serialize
the `Signature keyId=...` header (header names lower-cased and
space-joined). -/
def generateAuthorization (req : RequestDescriptor) (p : SigningParams) : Except String String :=
  match buildSigningString p.headers req.headers req.method req.path with
  | none => .error "missing signed header"
  | some msg =>
    .ok (String.mk ("Signature ".data ++ serPairs
      [("keyId", p.keyId), ("algorithm", p.algorithm), ("hash", p.hash),
       ("headers", joinSep " " (p.headers.map strLower)), ("signature", mkSig p.privateKey msg)]))

/-- Fully resolved Authorization header components handed to
`verifyAuthorization` (the TypeScript type `AuthorizationHeaderComponents`). -/
structure AuthComponents where
  keyId : String
  algorithm : String
  hash : String
  headers : List String
  signature : String
deriving DecidableEq

/-- JavaScript truthiness of the optional `algorithm`/`hash` components
(`undefined` and the empty string are falsy). -/
def optTruthy : Option String → Bool
  | none => false
  | some s => !(s == "")

/-- The `authComponents.algorithm && authComponents.hash ? authComponents :
Object.assign(authComponents, { hash: 'sha256', algorithm: 'ecdsa' })`
step of `checkKnotEventSignature` (lib.ts lines 691-693): when either
component is falsy, BOTH are overwritten with the defaults. -/
def resolveComponents (pc : ParsedAuth) : AuthComponents :=
  if optTruthy pc.algorithm && optTruthy pc.hash then
    { keyId := pc.keyId, algorithm := pc.algorithm.getD "", hash := pc.hash.getD "",
      headers := pc.headers, signature := pc.signature }
  else
    { keyId := pc.keyId, algorithm := "ecdsa", hash := "sha256",
      headers := pc.headers, signature := pc.signature }

/-- Inbound event under verification (the TypeScript interface
`SignatureEvent`, lib.ts lines 79-84). -/
structure SignatureEvent where
  headers : List (String × JsVal)
  httpMethod : String
  path : String

/-- Modelled from the spec (section 4.2 steps 5-6): `verifyAuthorization`
of the external signer package: rebuild the signing string from the
declared header list and the actual inbound headers, then check the
signature against the public key under the resolved algorithm/hash. -/
def verifyAuthorization (c : AuthComponents) (ev : SignatureEvent) (publicKey : String) :
    Except String Bool :=
  match buildSigningString c.headers ev.headers ev.httpMethod ev.path with
  | none => .error "missing signed header"
  | some msg =>
    .ok (c.algorithm == "ecdsa" && c.hash == "sha256" && c.signature == sigFromPub publicKey msg)

/-- Collapse a thrown exception to `false`: the body of
`checkKnotEventSignature` runs inside `try ... catch (e) { return false }`. -/
def errToFalse : Except String Bool → Bool
  | .ok b => b
  | .error _ => false

/-- Embedding of `KnotSVaaS.checkKnotEventSignature` (lib.ts lines
674-705): locate the Authorization header case-insensitively (absent or
non-string value fails), parse it (parse exceptions are caught to
`false`), require `x-knot-date` and `(request-target)` among the declared
headers, default absent algorithm/hash, and verify; every exception of
`verifyAuthorization` is caught to `false` as well.  The public key is the
`knotPublicKey` constructor option. -/
def checkKnotEventSignature (knotPublicKey : String) (event : SignatureEvent) : Bool :=
  match authLookup event.headers with
  | none => false
  | some av =>
    match av.2 with
    | .str authValue =>
      match parseAuthorizationHeader authValue with
      | .error _ => false
      | .ok pc =>
        if !(pc.headers.contains "x-knot-date") || !(pc.headers.contains "(request-target)") then
          false
        else
          errToFalse (verifyAuthorization (resolveComponents pc)
            { headers := event.headers, httpMethod := event.httpMethod, path := event.path }
            knotPublicKey)
    | _ => false

/-- JavaScript `v || dflt` on an optional string (both `undefined` and the
empty string fall back). -/
def jsOrStr (v : Option String) (dflt : String) : String :=
  match v with
  | some s => if s == "" then dflt else s
  | none => dflt

/-- The `(c.data ? JSON.stringify(c.data).length : 0)` expression of the
request interceptor (lib.ts line 155): the stamped Content-Length is the
JavaScript string length, i.e. UTF-16 code units, of the serialized body. -/
def contentLengthValue (data : Option JsVal) : Nat :=
  match data with
  | some d => if jsTruthy d then utf16Len (jsonStringify d) else 0
  | none => 0

/-- The fixed ordered signed-header set of the outbound contract. -/
def signedHeaderNames : List String :=
  ["X-Knot-Date", "(request-target)", "Content-Type", "Content-Length"]

/-- Input to the request interceptor: the axios request config fields it
reads.  `urlPath` is the already-extracted
`url?.href.split(url.origin)[1]` value (WHATWG URL parsing is external to
the repository); `none` models an absent url. -/
structure InterceptorConfig where
  method : Option String
  urlPath : Option String
  data : Option JsVal
  headers : List (String × JsVal)

/-- The header-stamping step of the axios request interceptor installed by
the `KnotSVaaS` constructor (lib.ts lines 151-155): `X-Knot-Date` (epoch
millis as a string), `X-Api-Key`, `Content-Type: application/json` and
`Content-Length` are written into the request headers before signing. -/
def stampedHeaders (keyId : String) (now : Nat) (c : InterceptorConfig) :
    List (String × JsVal) :=
  setHeader (setHeader (setHeader (setHeader c.headers
    "X-Knot-Date" (.str (toString now)))
    "X-Api-Key" (.str keyId))
    "Content-Type" (.str "application/json"))
    "Content-Length" (.str (toString (contentLengthValue c.data)))

/-- Embedding of the axios request interceptor (lib.ts lines 149-176):
stamp the four headers, then sign with `ecdsa`/`sha256` over the fixed
header set and inject the `Authorization` header.  A signing failure is
rethrown as an `SVaaSError` (here: an `Except.error` with the wrapped
message). -/
def interceptRequest (keyId privateKey : String) (now : Nat) (c : InterceptorConfig) :
    Except String (List (String × JsVal)) :=
  match generateAuthorization
      { headers := stampedHeaders keyId now c, method := jsOrStr c.method "POST",
        path := jsOrStr c.urlPath "/" }
      { algorithm := "ecdsa", hash := "sha256", headers := signedHeaderNames,
        keyId := keyId, privateKey := privateKey } with
  | .error e => .error ("Generating the request signature failed: " ++ e)
  | .ok auth => .ok (setHeader (stampedHeaders keyId now c) "Authorization" (.str auth))

/-- An HTTP request as dispatched by `makeRequest` through axios. -/
structure HttpRequest where
  method : String
  url : String
  data : Option JsVal
deriving DecidableEq

/-- Outcome of a dispatch: axios rejects (network failure or a non-200
status, per `validateStatus: status => status === 200`) or resolves with a
200 response body. -/
inductive TransportResult where
  | fail
  | ok (body : JsVal)
deriving DecidableEq

/-- The underlying transport, an explicit parameter of the embedding: the
SDK methods are functions of the transport, so "fails before any network
call" is an equation holding for every transport. -/
def Transport : Type := HttpRequest → TransportResult

/-- Errors surfaced by the SDK: `SVaaSError` (validation/configuration),
`SVaaSRequestError` (carrying the constructor arguments message, url and
payload), a rejected axios dispatch (the `AxiosError` carries the request
with its url and payload), and a JavaScript `TypeError`. -/
inductive SdkError where
  | svaas (message : String)
  | svaasRequest (message : String) (url : String) (data : Option JsVal)
  | axiosFail (request : HttpRequest)
  | typeError (message : String)
deriving DecidableEq

instance instDecEqExcept {ε α : Type} [DecidableEq ε] [DecidableEq α] :
    DecidableEq (Except ε α) := fun a b =>
  match a, b with
  | .ok x, .ok y =>
    if h : x = y then .isTrue (congrArg Except.ok h)
    else .isFalse (fun he => h (Except.ok.inj he))
  | .error x, .error y =>
    if h : x = y then .isTrue (congrArg Except.error h)
    else .isFalse (fun he => h (Except.error.inj he))
  | .ok _, .error _ => .isFalse (fun he => Except.noConfusion he)
  | .error _, .ok _ => .isFalse (fun he => Except.noConfusion he)

/-- An `SVaaSError` with the class's `[Knot SVaaS SDK] ` message tag
(SVaaSError.ts line 11). -/
def svaasError (message : String) : SdkError := .svaas ("[Knot SVaaS SDK] " ++ message)

/-- An `SVaaSRequestError`: the class receives the message, the url and the
payload and bakes them into its message (SVaaSError.ts lines 39-41); the
embedding also keeps the url and payload as fields. -/
def svaasRequestError (message url : String) (data : Option JsVal) : SdkError :=
  .svaasRequest
    ("[Knot SVaaS SDK] " ++ message ++ ": " ++ url ++ " " ++
      (match data with | some d => jsValToString d | none => "undefined"))
    url data

/-- Embedding of `KnotSVaaS.makeRequest` (lib.ts lines 769-782): dispatch
through axios; a rejected dispatch propagates as the axios error; a 200
response whose body has no defined `code` property is rethrown as an
`SVaaSRequestError` carrying the url and payload; otherwise the body is
returned. -/
def makeRequest (t : Transport) (method url : String) (data : Option JsVal) :
    Except SdkError JsVal :=
  match t { method := method, url := url, data := data } with
  | .fail => .error (.axiosFail { method := method, url := url, data := data })
  | .ok body =>
    if jsGetField body "code" = .undefined then
      .error (svaasRequestError ("Request return an error: " ++ jsonStringify body) url data)
    else .ok body

/-- JavaScript `Number.isInteger`. -/
def ratIsInteger (q : ℚ) : Bool := q.den == 1

/-- Embedding of `KnotSVaaS.makeStationRequest` (lib.ts lines 716-733).
The guard is the JavaScript truthiness test `if (id)`: an id equal to `0`
is falsy and takes the no-id branch, building the collection-level path
without any validation. -/
def makeStationRequest (t : Transport) (stationsEndpoint : Option String)
    (method version action : String) (id : Option ℚ) (data : Option JsVal) :
    Except SdkError JsVal :=
  let endp := jsOrStr stationsEndpoint "https://staas.knotcity.io"
  match id with
  | some i =>
    if i == 0 then makeRequest t method (endp ++ "/" ++ version ++ "/" ++ action) data
    else if !ratIsInteger i || decide (i < 1) then
      .error (svaasError "Station ID should be an integer greater or equal to 1")
    else makeRequest t method (endp ++ "/" ++ version ++ "/" ++ numToString i ++ "/" ++ action) data
  | none => makeRequest t method (endp ++ "/" ++ version ++ "/" ++ action) data

/-- Embedding of `KnotSVaaS.makeVehicleRequest` (lib.ts lines 744-760),
with the same JavaScript-truthiness id guard. -/
def makeVehicleRequest (t : Transport) (vehiclesEndpoint : Option String)
    (method version action : String) (id : Option ℚ) (data : Option JsVal) :
    Except SdkError JsVal :=
  let endp := jsOrStr vehiclesEndpoint "https://vaas.knotcity.io"
  match id with
  | some i =>
    if i == 0 then makeRequest t method (endp ++ "/" ++ version ++ "/" ++ action) data
    else if !ratIsInteger i || decide (i < 1) then
      .error (svaasError "Vehicle ID should be an integer greater or equal to 1")
    else makeRequest t method (endp ++ "/" ++ version ++ "/" ++ numToString i ++ "/" ++ action) data
  | none => makeRequest t method (endp ++ "/" ++ version ++ "/" ++ action) data

/-- Validated constructor options held by a `KnotSVaaS` instance
(`knotPublicKey` is stored unvalidated). -/
structure SVaaSOptions where
  stationsEndpoint : Option String
  vehiclesEndpoint : Option String
  privateKey : String
  knotPublicKey : JsVal
  keyId : String
deriving DecidableEq

/-- Whether a constructor outcome is a thrown `SVaaSError` (the spec's
configuration error). -/
def isSvaasError : Except SdkError SVaaSOptions → Bool
  | .error (.svaas _) => true
  | _ => false

/-- Optional boolean argument as the JavaScript value placed in a body. -/
def optBoolVal : Option Bool → JsVal
  | some b => .boolean b
  | none => .undefined

/-- Embedding of `KnotSVaaS.unlockSpot` (lib.ts lines 223-242): spot and
unlock ids are validated (integer, at least 1) before delegating; the
station id is only checked inside `makeStationRequest`. -/
def unlockSpot (t : Transport) (opts : SVaaSOptions) (stationId spotId unlockId : ℚ)
    (ignoreVehicleResponse : Option Bool) : Except SdkError JsVal :=
  if !ratIsInteger spotId || decide (spotId < 1) then
    .error (svaasError "Spot ID should be an integer greater or equal to 1")
  else if !ratIsInteger unlockId || decide (unlockId < 1) then
    .error (svaasError "Unlock ID should be an integer greater or equal to 1")
  else
    makeStationRequest t opts.stationsEndpoint "POST" "v1" "unlock" (some stationId)
      (some (.obj (.cons "spot" (.num spotId) (.cons "unlock" (.num unlockId)
        (.cons "ignore_vehicle_response" (optBoolVal ignoreVehicleResponse) .nil)))))

/-- Embedding of `KnotSVaaS.unlockVehicle` (lib.ts lines 427-441): the
unlock id is validated; the vehicle id is only checked inside
`makeVehicleRequest`. -/
def unlockVehicle (t : Transport) (opts : SVaaSOptions) (vehicleId unlockId : ℚ)
    (ignoreStationStatus : Option Bool) : Except SdkError JsVal :=
  if !ratIsInteger unlockId || decide (unlockId < 1) then
    .error (svaasError "Unlock ID should be an integer greater or equal to 1")
  else
    makeVehicleRequest t opts.vehiclesEndpoint "POST" "v1" "unlock" (some vehicleId)
      (some (.obj (.cons "unlock" (.num unlockId)
        (.cons "ignore_station_status" (optBoolVal ignoreStationStatus) .nil))))

/-- Embedding of `KnotSVaaS.changeStationLabel` (lib.ts lines 312-323); the
`typeof label !== 'string'` guard of the source is unreachable in this
typed embedding, the length guard is the JavaScript UTF-16 `label.length >
50` test. -/
def changeStationLabel (t : Transport) (opts : SVaaSOptions) (stationId : ℚ) (label : String) :
    Except SdkError JsVal :=
  if utf16Len label > 50 then
    .error (svaasError "The given label exceeds the authorised size (50)")
  else
    makeStationRequest t opts.stationsEndpoint "PUT" "v1" "label" (some stationId)
      (some (.obj (.cons "label" (.str label) .nil)))

/-- Embedding of `KnotSVaaS.changeStationLabelAndGroup` (lib.ts lines
333-352): label length checked, then group length. -/
def changeStationLabelAndGroup (t : Transport) (opts : SVaaSOptions) (stationId : ℚ)
    (label group : String) : Except SdkError JsVal :=
  if utf16Len label > 50 then
    .error (svaasError "The given label exceeds the authorised size (50)")
  else if utf16Len group > 50 then
    .error (svaasError "The given group exceeds the authorised size (50)")
  else
    makeStationRequest t opts.stationsEndpoint "PUT" "v1" "label" (some stationId)
      (some (.obj (.cons "label" (.str label) (.cons "group" (.str group) .nil))))

/-- Embedding of `KnotSVaaS.changeVehicleLabel` (lib.ts lines 590-593): the
source performs NO validation of the label. -/
def changeVehicleLabel (t : Transport) (opts : SVaaSOptions) (vehicleId : ℚ) (label : String) :
    Except SdkError JsVal :=
  makeVehicleRequest t opts.vehiclesEndpoint "PUT" "v1" "label" (some vehicleId)
    (some (.obj (.cons "label" (.str label) .nil)))

/-- Embedding of `KnotSVaaS.changeVehicleLabelAndGroup` (lib.ts lines
603-606): the source performs NO validation of the label or the group. -/
def changeVehicleLabelAndGroup (t : Transport) (opts : SVaaSOptions) (vehicleId : ℚ)
    (label group : String) : Except SdkError JsVal :=
  makeVehicleRequest t opts.vehiclesEndpoint "PUT" "v1" "label" (some vehicleId)
    (some (.obj (.cons "label" (.str label) (.cons "group" (.str group) .nil))))

/-- Endpoint option validation of the `KnotSVaaS` constructor (lib.ts lines
104-133): `undefined` is accepted, a non-string is a configuration error, a
string shorter than 3 UTF-16 units is a configuration error, and a
trailing `/` is stripped. -/
def checkEndpoint (v : JsVal) (what : String) : Except SdkError (Option String) :=
  match v with
  | .undefined => .ok none
  | .str s =>
    if utf16Len s < 3 then
      .error (svaasError ("The given " ++ what ++ " endpoint is too short to be valid"))
    else if s.data.getLast? = some '/' then .ok (some (String.mk s.data.dropLast))
    else .ok (some s)
  | v' =>
    .error (svaasError ("The given " ++ what ++ " endpoint should be a string and not a " ++
      jsTypeof v'))

/-- Embedding of the `KnotSVaaS` constructor validation (lib.ts lines
98-147): a value whose `typeof` is not `object` is rejected first (note
`typeof null === "object"`: property access on `null` then raises a
`TypeError`, not an `SVaaSError`); then the two endpoints, then `keyId`
and `privateKey` must be strings; `knotPublicKey` is stored without
validation. -/
def mkKnotSVaaS (options : JsVal) : Except SdkError SVaaSOptions :=
  if jsTypeof options ≠ "object" then
    .error (svaasError ("Options should be an object and not a " ++ jsTypeof options))
  else if options = .jsNull then
    .error (.typeError "Cannot read properties of null (reading 'stationsEndpoint')")
  else
    match checkEndpoint (jsGetField options "stationsEndpoint") "stations" with
    | .error e => .error e
    | .ok se =>
      match checkEndpoint (jsGetField options "vehiclesEndpoint") "vehicles" with
      | .error e => .error e
      | .ok ve =>
        match jsGetField options "keyId" with
        | .str k =>
          match jsGetField options "privateKey" with
          | .str pk =>
            .ok { stationsEndpoint := se, vehiclesEndpoint := ve, privateKey := pk,
                  knotPublicKey := jsGetField options "knotPublicKey", keyId := k }
          | v =>
            .error (svaasError ("The given privateKey should be a string and not a " ++ jsTypeof v))
        | v =>
          .error (svaasError ("The given keyId should be a string and not a " ++ jsTypeof v))

/-- A successful response body `{code: 0, message: "OK"}`. -/
def okBody : JsVal := .obj (.cons "code" (.num 0) (.cons "message" (.str "OK") .nil))

/-- A transport that answers every request with a 200 whose body echoes the
requested url in its `message` field, used to observe which url a method
dispatches to. -/
def echoTransport : Transport :=
  fun r => .ok (.obj (.cons "code" (.num 0) (.cons "message" (.str r.url) .nil)))

/-- A transport that rejects every dispatch (network failure / non-200). -/
def failTransport : Transport := fun _ => .fail

/-- Validated options of a concretely constructed client. -/
def defaultOpts : SVaaSOptions :=
  { stationsEndpoint := none, vehiclesEndpoint := none, privateKey := "p",
    knotPublicKey := .str "pub", keyId := "k" }

/-- Concrete interceptor input for the round-trip witness: a GET to
`/v1/42/ping` with no body and no caller-supplied headers. -/
def cfgPing : InterceptorConfig :=
  { method := some "GET", urlPath := some "/v1/42/ping", data := none, headers := [] }

/-- The signing string covered by the witness header of the
missing-`x-knot-date` scenario: it declares only `(request-target)` and
`content-type`. -/
def msgNoDate : String := "(request-target): post /x\ncontent-type: application/json"

/-- An Authorization header that omits `x-knot-date` from its declared
header list but whose signature is cryptographically valid for
`msgNoDate` under the key pair of `"p"`. -/
def authNoDate : String :=
  String.mk ("Signature ".data ++ serPairs
    [("keyId", "k"), ("algorithm", "ecdsa"), ("hash", "sha256"),
     ("headers", "(request-target) content-type"), ("signature", mkSig "p" msgNoDate)])

/-- Inbound event carrying `authNoDate`. -/
def evNoDate : SignatureEvent :=
  { headers := [("Content-Type", .str "application/json"), ("Authorization", .str authNoDate)],
    httpMethod := "POST", path := "/x" }

/-- Inbound event with a malformed Authorization header value (no quotes
around the field value). -/
def evMalformed : SignatureEvent :=
  { headers := [("authorization", .str "Signature keyId=oops")], httpMethod := "GET", path := "/" }

/-- A well-formed Authorization header whose declared list includes
`content-type`. -/
def authMissingHdr : String :=
  String.mk ("Signature ".data ++ serPairs
    [("keyId", "k"), ("algorithm", "ecdsa"), ("hash", "sha256"),
     ("headers", "x-knot-date (request-target) content-type"), ("signature", "xyz")])

/-- Inbound event carrying `authMissingHdr` while its header map lacks the
declared `content-type` header, so the verification stage itself throws. -/
def evMissingHdr : SignatureEvent :=
  { headers := [("x-knot-date", .str "1"), ("authorization", .str authMissingHdr)],
    httpMethod := "POST", path := "/x" }

/-- An Authorization header with no `algorithm` and no `hash` field. -/
def authNoAlg : String :=
  String.mk ("Signature ".data ++ serPairs
    [("keyId", "k"), ("headers", "x-knot-date (request-target)"), ("signature", "xyz")])

/-- Inbound event carrying `authNoAlg`. -/
def evNoAlg : SignatureEvent :=
  { headers := [("x-knot-date", .str "1"), ("authorization", .str authNoAlg)],
    httpMethod := "POST", path := "/x" }

/-- The signing string covered by the witness header that declares
`algorithm="rsa"` and omits `hash`. -/
def msgRsa : String := "x-knot-date: 123\n(request-target): post /x"

/-- An Authorization header declaring algorithm `rsa` with no hash field;
its signature is the `ecdsa`/`sha256` signature of `msgRsa` under the key
pair of `"p"`. -/
def authRsa : String :=
  String.mk ("Signature ".data ++ serPairs
    [("keyId", "k"), ("algorithm", "rsa"), ("headers", "x-knot-date (request-target)"),
     ("signature", mkSig "p" msgRsa)])

/-- Inbound event carrying `authRsa`. -/
def evRsa : SignatureEvent :=
  { headers := [("x-knot-date", .str "123"), ("authorization", .str authRsa)],
    httpMethod := "POST", path := "/x" }

/-- A request body containing a non-ASCII character: its serialized JSON is
9 UTF-16 code units but 10 UTF-8 bytes long. -/
def accentBody : JsVal := .obj (.cons "a" (.str "é") .nil)

/-- A 51-character label. -/
def label51 : String := String.mk (List.replicate 51 'a')

/-- A 50-character label. -/
def label50 : String := String.mk (List.replicate 50 'a')

/-- The non-integral JavaScript number 0.5, given in normalized form so
that its denominator is a literal. -/
def halfQ : ℚ := ⟨1, 2, by decide, Nat.coprime_one_left 2⟩

/-! Helper lemmas about the wire-format parser and the header map. -/

theorem spanTo_append (stop : Char) (bad : List Char) (v r : List Char)
    (hstop : stop ∉ v) (hbad : ∀ c ∈ v, c ∉ bad) :
    spanTo stop bad (v ++ stop :: r) = some (v, r) := by
  induction v with
  | nil => simp [spanTo]
  | cons c cs ih =>
    have hc : ¬ c = stop := fun h => hstop (h ▸ List.mem_cons_self c cs)
    have hcb : c ∉ bad := hbad c (List.mem_cons_self c cs)
    have ih' := ih (fun h => hstop (List.mem_cons_of_mem c h))
      (fun x hx => hbad x (List.mem_cons_of_mem c hx))
    simp [spanTo, hc, hcb, ih']

theorem length_le_serPairs : ∀ ps : List (String × String), ps.length ≤ (serPairs ps).length
  | [] => by simp [serPairs]
  | [p] => by simp [serPairs, serPair]; omega
  | p :: q :: ps => by
    have ih := length_le_serPairs (q :: ps)
    simp only [serPairs, serPair, List.length_append, List.length_cons] at *
    omega

theorem parsePairsF_serPairs :
    ∀ (ps : List (String × String)) (fuel : Nat), ps.length ≤ fuel → ps ≠ [] →
    (∀ p ∈ ps, p.1.data ≠ [] ∧ '=' ∉ p.1.data ∧ '"' ∉ p.1.data ∧ ',' ∉ p.1.data) →
    (∀ p ∈ ps, '"' ∉ p.2.data) →
    parsePairsF fuel (serPairs ps) = some ps
  | [], _, _, hne, _, _ => absurd rfl hne
  | p :: ps', fuel, hfuel, _, hnm, hv => by
    obtain ⟨f, rfl⟩ : ∃ f, fuel = f + 1 := by
      cases fuel with
      | zero => simp at hfuel
      | succ f => exact ⟨f, rfl⟩
    obtain ⟨hn1, hn2, hn3, hn4⟩ := hnm p (List.mem_cons_self p ps')
    have hv1 := hv p (List.mem_cons_self p ps')
    have hbadname : ∀ c ∈ p.1.data, c ∉ (['"', ','] : List Char) := by
      intro c hc
      simp only [List.mem_cons, List.not_mem_nil, or_false]
      exact not_or.mpr ⟨fun h => hn3 (h ▸ hc), fun h => hn4 (h ▸ hc)⟩
    match ps' with
    | [] =>
      have hsp1 : spanTo '=' ['"', ','] (p.1.data ++ '=' :: ('"' :: (p.2.data ++ '"' :: ([] : List Char)))) =
          some (p.1.data, '"' :: (p.2.data ++ '"' :: ([] : List Char))) :=
        spanTo_append _ _ _ _ hn2 hbadname
      have hsp2 : spanTo '"' [] (p.2.data ++ '"' :: ([] : List Char)) = some (p.2.data, []) :=
        spanTo_append _ _ _ _ hv1 (by intro c _; simp)
      have hshape : serPairs [p] =
          p.1.data ++ '=' :: ('"' :: (p.2.data ++ '"' :: ([] : List Char))) := by
        simp [serPairs, serPair, List.append_assoc]
      rw [hshape]
      simp only [parsePairsF]
      rw [hsp1]
      simp [hn1, hsp2]
    | q :: ps'' =>
      have hrest := parsePairsF_serPairs (q :: ps'') f (by simpa using hfuel)
        (by simp) (fun x hx => hnm x (List.mem_cons_of_mem p hx))
        (fun x hx => hv x (List.mem_cons_of_mem p hx))
      have hsp1 : spanTo '=' ['"', ','] (p.1.data ++ '=' ::
            ('"' :: (p.2.data ++ '"' :: (',' :: serPairs (q :: ps''))))) =
          some (p.1.data, '"' :: (p.2.data ++ '"' :: (',' :: serPairs (q :: ps'')))) :=
        spanTo_append _ _ _ _ hn2 hbadname
      have hsp2 : spanTo '"' [] (p.2.data ++ '"' :: (',' :: serPairs (q :: ps''))) =
          some (p.2.data, ',' :: serPairs (q :: ps'')) :=
        spanTo_append _ _ _ _ hv1 (by intro c _; simp)
      have hshape : serPairs (p :: q :: ps'') = p.1.data ++ '=' ::
          ('"' :: (p.2.data ++ '"' :: (',' :: serPairs (q :: ps'')))) := by
        simp [serPairs, serPair, List.append_assoc]
      rw [hshape]
      simp only [parsePairsF]
      rw [hsp1]
      simp [hn1, hsp2, hrest]

theorem dropLeading_append (p l : List Char) : dropLeading p (p ++ l) = some l := by
  induction p with
  | nil => rfl
  | cons c cs ih => simp [dropLeading, ih]

theorem quote_not_mem_encStr (s : String) : '"' ∉ encStr s := by
  unfold encStr
  intro h
  obtain ⟨l, hl, hmem⟩ := List.mem_flatten.mp h
  obtain ⟨c, _, rfl⟩ := List.mem_map.mp hl
  unfold escSigChar at hmem
  by_cases h1 : c = '%'
  · simp [h1] at hmem
  · by_cases h2 : c = '"'
    · simp [h1, h2] at hmem
    · simp only [h1, h2, if_false] at hmem
      simp at hmem
      exact h2 hmem.symm

theorem quote_not_mem_sigFromPub (pub m : String) : '"' ∉ (sigFromPub pub m).data := by
  unfold sigFromPub
  intro h
  rcases List.mem_append.mp h with h | h
  · exact (by decide : '"' ∉ "sig(".data) h
  · rcases List.mem_append.mp h with h | h
    · exact quote_not_mem_encStr pub h
    · rcases List.mem_cons.mp h with h | h
      · exact (by decide : ('"' : Char) ≠ '.') h
      · rcases List.mem_append.mp h with h | h
        · exact quote_not_mem_encStr m h
        · exact (by decide : '"' ∉ [')']) h

/-- Round trip of the generated Authorization header through the parser:
the serialized `Signature keyId="...",algorithm="ecdsa",hash="sha256",
headers="...",signature="..."` header parses back to exactly its
components, provided none of the variable values contains a double
quote. -/
theorem parseAuth_generated (k j s : String)
    (hk : '"' ∉ k.data) (hj : '"' ∉ j.data) (hsg : '"' ∉ s.data) :
    parseAuthorizationHeader (String.mk ("Signature ".data ++ serPairs
      [("keyId", k), ("algorithm", "ecdsa"), ("hash", "sha256"),
       ("headers", j), ("signature", s)])) =
    .ok { keyId := k, algorithm := some "ecdsa", hash := some "sha256",
          headers := (splitSp j.data).map String.mk, signature := s } := by
  have hpairs : parsePairsF ((serPairs [("keyId", k), ("algorithm", "ecdsa"), ("hash", "sha256"),
        ("headers", j), ("signature", s)]).length + 1)
      (serPairs [("keyId", k), ("algorithm", "ecdsa"), ("hash", "sha256"),
        ("headers", j), ("signature", s)]) =
      some [("keyId", k), ("algorithm", "ecdsa"), ("hash", "sha256"),
        ("headers", j), ("signature", s)] := by
    apply parsePairsF_serPairs
    · have := length_le_serPairs [("keyId", k), ("algorithm", "ecdsa"), ("hash", "sha256"),
        ("headers", j), ("signature", s)]
      omega
    · simp
    · intro p hp
      simp only [List.mem_cons, List.not_mem_nil, or_false] at hp
      rcases hp with rfl | rfl | rfl | rfl | rfl
      · exact ⟨(by decide : ¬("keyId".data = [])), (by decide : '=' ∉ "keyId".data),
          (by decide : '"' ∉ "keyId".data), (by decide : ',' ∉ "keyId".data)⟩
      · exact ⟨(by decide : ¬("algorithm".data = [])), (by decide : '=' ∉ "algorithm".data),
          (by decide : '"' ∉ "algorithm".data), (by decide : ',' ∉ "algorithm".data)⟩
      · exact ⟨(by decide : ¬("hash".data = [])), (by decide : '=' ∉ "hash".data),
          (by decide : '"' ∉ "hash".data), (by decide : ',' ∉ "hash".data)⟩
      · exact ⟨(by decide : ¬("headers".data = [])), (by decide : '=' ∉ "headers".data),
          (by decide : '"' ∉ "headers".data), (by decide : ',' ∉ "headers".data)⟩
      · exact ⟨(by decide : ¬("signature".data = [])), (by decide : '=' ∉ "signature".data),
          (by decide : '"' ∉ "signature".data), (by decide : ',' ∉ "signature".data)⟩
    · intro p hp
      simp only [List.mem_cons, List.not_mem_nil, or_false] at hp
      rcases hp with rfl | rfl | rfl | rfl | rfl
      · exact hk
      · exact (by decide : '"' ∉ "ecdsa".data)
      · exact (by decide : '"' ∉ "sha256".data)
      · exact hj
      · exact hsg
  have hc1 : knownAuthFields.contains "keyId" = true := by decide
  have hc2 : knownAuthFields.contains "algorithm" = true := by decide
  have hc3 : knownAuthFields.contains "hash" = true := by decide
  have hc4 : knownAuthFields.contains "headers" = true := by decide
  have hc5 : knownAuthFields.contains "signature" = true := by decide
  unfold parseAuthorizationHeader
  simp [dropLeading, hpairs, hc1, hc2, hc3, hc4, hc5, lookupField, List.find?]
  exact ⟨by decide, by decide, by decide, by decide, by decide⟩

theorem find?_append_of_forall_false {α} (p : α → Bool) (xs ys : List α)
    (h : ∀ x ∈ xs, p x = false) : (xs ++ ys).find? p = ys.find? p := by
  induction xs with
  | nil => rfl
  | cons a as ih =>
    have ha := h a (List.mem_cons_self a as)
    simp only [List.cons_append, List.find?]
    rw [ha]
    exact ih (fun x hx => h x (List.mem_cons_of_mem a hx))

theorem find?_append_left {α} (p : α → Bool) (xs ys : List α)
    (h : (xs.find? p).isSome) : (xs ++ ys).find? p = xs.find? p := by
  induction xs with
  | nil => simp at h
  | cons a as ih =>
    cases hpa : p a with
    | true =>
      have h1 : ((a :: as) ++ ys).find? p = some a := by simp [List.find?, hpa]
      have h2 : (a :: as).find? p = some a := by simp [List.find?, hpa]
      rw [h1, h2]
    | false =>
      have h1 : ((a :: as) ++ ys).find? p = (as ++ ys).find? p := by simp [List.find?, hpa]
      have h2 : (a :: as).find? p = as.find? p := by simp [List.find?, hpa]
      rw [h2] at h
      rw [h1, h2]
      exact ih h

theorem mem_setHeader (hs : List (String × JsVal)) (k : String) (v : JsVal) :
    ∀ q ∈ setHeader hs k v, q.1 = k ∨ q ∈ hs := by
  intro q hq
  unfold setHeader at hq
  by_cases hany : hs.any (fun p => p.1 == k) = true
  · rw [if_pos hany] at hq
    obtain ⟨p, hp, hpq⟩ := List.mem_map.mp hq
    by_cases hpk : (p.1 == k) = true
    · left; rw [if_pos hpk] at hpq; rw [← hpq]
    · right; rw [Bool.not_eq_true] at hpk; rw [if_neg (by simp [hpk])] at hpq; rw [← hpq]; exact hp
  · rw [if_neg hany] at hq
    rcases List.mem_append.mp hq with h | h
    · right; exact h
    · left; rcases List.mem_singleton.mp h with rfl; rfl

theorem setHeader_key_mem (hs : List (String × JsVal)) (k : String) (v : JsVal) :
    ∃ q ∈ setHeader hs k v, q.1 = k := by
  unfold setHeader
  by_cases hany : hs.any (fun p => p.1 == k) = true
  · rw [if_pos hany]
    obtain ⟨p, hp, hpk⟩ := List.any_eq_true.mp hany
    refine ⟨(k, v), List.mem_map.mpr ⟨p, hp, ?_⟩, rfl⟩
    rw [if_pos hpk]
  · rw [if_neg hany]
    exact ⟨(k, v), List.mem_append.mpr (Or.inr (List.mem_singleton.mpr rfl)), rfl⟩

theorem setHeader_key_preserved (hs : List (String × JsVal)) (k' : String) (v' : JsVal)
    (k : String) (h : ∃ q ∈ hs, q.1 = k) : ∃ q ∈ setHeader hs k' v', q.1 = k := by
  by_cases hkk : k = k'
  · subst hkk; exact setHeader_key_mem hs k v'
  · obtain ⟨q, hq, hqk⟩ := h
    unfold setHeader
    by_cases hany : hs.any (fun p => p.1 == k') = true
    · rw [if_pos hany]
      have hqk' : ¬ (q.1 == k') = true := by
        simp only [beq_iff_eq]
        rw [hqk]; exact hkk
      refine ⟨q, List.mem_map.mpr ⟨q, hq, ?_⟩, hqk⟩
      rw [if_neg hqk']
    · rw [if_neg hany]
      exact ⟨q, List.mem_append.mpr (Or.inl hq), hqk⟩

theorem setHeader_eq_append (hs : List (String × JsVal)) (k : String) (v : JsVal)
    (h : ∀ p ∈ hs, p.1 ≠ k) : setHeader hs k v = hs ++ [(k, v)] := by
  unfold setHeader
  rw [if_neg]
  simp only [List.any_eq_true, beq_iff_eq, not_exists]
  intro p
  intro ⟨hp, hpk⟩
  exact h p hp hpk

theorem getHeaderCI_isSome_of_key (hs : List (String × JsVal)) (name : String)
    (h : ∃ q ∈ hs, strLower q.1 = strLower name) : ∃ v, getHeaderCI hs name = some v := by
  unfold getHeaderCI
  have hsome : (hs.find? (fun p => strLower p.1 == strLower name)).isSome := by
    apply List.find?_isSome.mpr
    obtain ⟨q, hq, he⟩ := h
    exact ⟨q, hq, by simp [he]⟩
  obtain ⟨q, hfind⟩ := Option.isSome_iff_exists.mp hsome
  exact ⟨q.2, by rw [hfind]; rfl⟩

theorem getHeaderCI_append_left (hs extra : List (String × JsVal)) (name : String) (v : JsVal)
    (h : getHeaderCI hs name = some v) : getHeaderCI (hs ++ extra) name = some v := by
  unfold getHeaderCI at h ⊢
  rw [find?_append_left]
  · exact h
  · cases hf : hs.find? (fun p => strLower p.1 == strLower name) with
    | none => rw [hf] at h; simp at h
    | some q => simp

/-- The four stamped header keys are present in the stamped header map. -/
theorem stamped_has_xkd (keyId : String) (now : Nat) (c : InterceptorConfig) :
    ∃ q ∈ stampedHeaders keyId now c, q.1 = "X-Knot-Date" := by
  unfold stampedHeaders
  apply setHeader_key_preserved
  apply setHeader_key_preserved
  apply setHeader_key_preserved
  exact setHeader_key_mem _ _ _

theorem stamped_has_ct (keyId : String) (now : Nat) (c : InterceptorConfig) :
    ∃ q ∈ stampedHeaders keyId now c, q.1 = "Content-Type" := by
  unfold stampedHeaders
  apply setHeader_key_preserved
  exact setHeader_key_mem _ _ _

theorem stamped_has_cl (keyId : String) (now : Nat) (c : InterceptorConfig) :
    ∃ q ∈ stampedHeaders keyId now c, q.1 = "Content-Length" := by
  unfold stampedHeaders
  exact setHeader_key_mem _ _ _

/-- Every key of the stamped header map comes from the caller's headers or
is one of the four stamped names; none of them lower-cases to
`authorization` when the caller's do not. -/
theorem stamped_no_auth_key (keyId : String) (now : Nat) (c : InterceptorConfig)
    (hauth : ∀ p ∈ c.headers, strLower p.1 ≠ "authorization") :
    ∀ p ∈ stampedHeaders keyId now c, strLower p.1 ≠ "authorization" := by
  intro p hp
  unfold stampedHeaders at hp
  rcases mem_setHeader _ _ _ p hp with h | hp2
  · rw [h]; decide
  rcases mem_setHeader _ _ _ p hp2 with h | hp3
  · rw [h]; decide
  rcases mem_setHeader _ _ _ p hp3 with h | hp4
  · rw [h]; decide
  rcases mem_setHeader _ _ _ p hp4 with h | hp5
  · rw [h]; decide
  exact hauth p hp5

theorem signingLine_header (hs : List (String × JsVal)) (m pth name lname : String) (v : JsVal)
    (hl : strLower name = lname) (hne : lname ≠ "(request-target)")
    (hv : getHeaderCI hs lname = some v) :
    signingLine hs m pth name = some (lname ++ ": " ++ jsValToString v) := by
  simp only [signingLine]
  rw [hl, if_neg hne, hv]

theorem signingLine_target (hs : List (String × JsVal)) (m pth name : String)
    (hl : strLower name = "(request-target)") :
    signingLine hs m pth name = some ("(request-target)" ++ ": " ++ strLower m ++ " " ++ pth) := by
  simp only [signingLine]
  rw [hl, if_pos rfl]

/-- The canonical signing string over the four-header contract, for any
header map in which all three real headers resolve (the declared names may
be in either case: they are lower-cased first). -/
theorem buildSigning_four (hs : List (String × JsVal)) (m pth n1 n2 n3 n4 : String)
    (vd vct vcl : JsVal)
    (h1 : strLower n1 = "x-knot-date") (h2 : strLower n2 = "(request-target)")
    (h3 : strLower n3 = "content-type") (h4 : strLower n4 = "content-length")
    (hvd : getHeaderCI hs "x-knot-date" = some vd)
    (hct : getHeaderCI hs "content-type" = some vct)
    (hcl : getHeaderCI hs "content-length" = some vcl) :
    buildSigningString [n1, n2, n3, n4] hs m pth =
      some (joinSep "\n" ["x-knot-date" ++ ": " ++ jsValToString vd,
        "(request-target)" ++ ": " ++ strLower m ++ " " ++ pth,
        "content-type" ++ ": " ++ jsValToString vct,
        "content-length" ++ ": " ++ jsValToString vcl]) := by
  have l1 := signingLine_header hs m pth n1 "x-knot-date" vd h1 (by decide) hvd
  have l2 := signingLine_target hs m pth n2 h2
  have l3 := signingLine_header hs m pth n3 "content-type" vct h3 (by decide) hct
  have l4 := signingLine_header hs m pth n4 "content-length" vcl h4 (by decide) hcl
  unfold buildSigningString
  simp only [mapOpt, l1, l2, l3, l4]

/-- Core of the round trip: an event whose headers are a well-formed map
(the three real signed headers resolve, no key collides with
`authorization`) followed by the Authorization header generated over
exactly the canonical signing string verifies under the matching public
key. -/
theorem check_of_wellformed (priv keyId m pth : String) (H : List (String × JsVal))
    (vd vct vcl : JsVal)
    (hkq : '"' ∉ keyId.data)
    (hvd : getHeaderCI H "x-knot-date" = some vd)
    (hvct : getHeaderCI H "content-type" = some vct)
    (hvcl : getHeaderCI H "content-length" = some vcl)
    (hno : ∀ p ∈ H, strLower p.1 ≠ "authorization") :
    checkKnotEventSignature (pubOf priv)
      { headers := H ++ [("Authorization", JsVal.str (String.mk ("Signature ".data ++ serPairs
          [("keyId", keyId), ("algorithm", "ecdsa"), ("hash", "sha256"),
           ("headers", "x-knot-date (request-target) content-type content-length"),
           ("signature", mkSig priv (joinSep "\n" ["x-knot-date" ++ ": " ++ jsValToString vd,
             "(request-target)" ++ ": " ++ strLower m ++ " " ++ pth,
             "content-type" ++ ": " ++ jsValToString vct,
             "content-length" ++ ": " ++ jsValToString vcl]))])))],
        httpMethod := m, path := pth } = true := by
  have hfalse : ∀ p ∈ H, (strLower p.1 == "authorization") = false := by
    intro p hp
    rw [beq_eq_false_iff_ne]
    exact hno p hp
  set MSG := joinSep "\n" ["x-knot-date" ++ ": " ++ jsValToString vd,
      "(request-target)" ++ ": " ++ strLower m ++ " " ++ pth,
      "content-type" ++ ": " ++ jsValToString vct,
      "content-length" ++ ": " ++ jsValToString vcl] with hMSG
  set A := String.mk ("Signature ".data ++ serPairs
      [("keyId", keyId), ("algorithm", "ecdsa"), ("hash", "sha256"),
       ("headers", "x-knot-date (request-target) content-type content-length"),
       ("signature", mkSig priv MSG)]) with hA
  have hfind : authLookup (H ++ [("Authorization", JsVal.str A)]) =
      some ("Authorization", JsVal.str A) := by
    unfold authLookup
    rw [find?_append_of_forall_false _ _ _ hfalse]
    rfl
  have hparse := parseAuth_generated keyId
    "x-knot-date (request-target) content-type content-length" (mkSig priv MSG)
    hkq (by decide) (by unfold mkSig; exact quote_not_mem_sigFromPub _ _)
  rw [← hA] at hparse
  have hnames : (splitSp ("x-knot-date (request-target) content-type content-length").data).map
      String.mk = ["x-knot-date", "(request-target)", "content-type", "content-length"] := by decide
  rw [hnames] at hparse
  have hvd' := getHeaderCI_append_left H [("Authorization", JsVal.str A)] "x-knot-date" vd hvd
  have hvct' := getHeaderCI_append_left H [("Authorization", JsVal.str A)] "content-type" vct hvct
  have hvcl' := getHeaderCI_append_left H [("Authorization", JsVal.str A)] "content-length" vcl hvcl
  have hbuildV := buildSigning_four (H ++ [("Authorization", JsVal.str A)])
    m pth "x-knot-date" "(request-target)" "content-type" "content-length" vd vct vcl
    rfl rfl rfl rfl hvd' hvct' hvcl'
  rw [← hMSG] at hbuildV
  have hcon1 : (["x-knot-date", "(request-target)", "content-type",
      "content-length"].contains "x-knot-date") = true := by decide
  have hcon2 : (["x-knot-date", "(request-target)", "content-type",
      "content-length"].contains "(request-target)") = true := by decide
  simp only [checkKnotEventSignature, hfind, hparse]
  simp only [hcon1, hcon2, Bool.not_true, Bool.or_self, Bool.false_or, if_false]
  simp only [resolveComponents, optTruthy]
  simp only [verifyAuthorization]
  simp [hbuildV, errToFalse, mkSig]

/-- C1: for every valid request descriptor (any method, url path, body and
caller headers whose keys do not collide with `authorization`, and a keyId
without a double quote, which the wire format cannot carry) and every
matching ECDSA key pair, signing the request as the outbound interceptor
does via `generateAuthorization` and then verifying the resulting header
set with `checkKnotEventSignature` under the matching public key returns
`true`. -/
theorem sign_then_verify_roundtrip (privateKey keyId : String) (now : Nat)
    (c : InterceptorConfig) (hs : List (String × JsVal))
    (hkq : '"' ∉ keyId.data)
    (hauth : ∀ p ∈ c.headers, strLower p.1 ≠ "authorization")
    (hok : interceptRequest keyId privateKey now c = .ok hs) :
    checkKnotEventSignature (pubOf privateKey)
      { headers := hs, httpMethod := jsOrStr c.method "POST",
        path := jsOrStr c.urlPath "/" } = true := by
  obtain ⟨vd, hvd⟩ := getHeaderCI_isSome_of_key (stampedHeaders keyId now c) "x-knot-date" (by
    obtain ⟨q, hq, hk⟩ := stamped_has_xkd keyId now c
    exact ⟨q, hq, by rw [hk]; decide⟩)
  obtain ⟨vct, hvct⟩ := getHeaderCI_isSome_of_key (stampedHeaders keyId now c) "content-type" (by
    obtain ⟨q, hq, hk⟩ := stamped_has_ct keyId now c
    exact ⟨q, hq, by rw [hk]; decide⟩)
  obtain ⟨vcl, hvcl⟩ := getHeaderCI_isSome_of_key (stampedHeaders keyId now c) "content-length" (by
    obtain ⟨q, hq, hk⟩ := stamped_has_cl keyId now c
    exact ⟨q, hq, by rw [hk]; decide⟩)
  have hbuildS : buildSigningString signedHeaderNames (stampedHeaders keyId now c)
      (jsOrStr c.method "POST") (jsOrStr c.urlPath "/") =
      some (joinSep "\n" ["x-knot-date" ++ ": " ++ jsValToString vd,
        "(request-target)" ++ ": " ++ strLower (jsOrStr c.method "POST") ++ " " ++
          jsOrStr c.urlPath "/",
        "content-type" ++ ": " ++ jsValToString vct,
        "content-length" ++ ": " ++ jsValToString vcl]) := by
    rw [show signedHeaderNames =
      ["X-Knot-Date", "(request-target)", "Content-Type", "Content-Length"] from rfl]
    exact buildSigning_four _ _ _ _ _ _ _ vd vct vcl rfl rfl rfl rfl hvd hvct hvcl
  have hnoauthk : ∀ p ∈ stampedHeaders keyId now c, p.1 ≠ "Authorization" := by
    intro p hp heq
    have h2 := stamped_no_auth_key keyId now c hauth p hp
    rw [heq] at h2
    exact h2 rfl
  have hint : interceptRequest keyId privateKey now c =
      .ok (setHeader (stampedHeaders keyId now c) "Authorization"
        (JsVal.str (String.mk ("Signature ".data ++ serPairs
          [("keyId", keyId), ("algorithm", "ecdsa"), ("hash", "sha256"),
           ("headers", "x-knot-date (request-target) content-type content-length"),
           ("signature", mkSig privateKey (joinSep "\n"
             ["x-knot-date" ++ ": " ++ jsValToString vd,
              "(request-target)" ++ ": " ++ strLower (jsOrStr c.method "POST") ++ " " ++
                jsOrStr c.urlPath "/",
              "content-type" ++ ": " ++ jsValToString vct,
              "content-length" ++ ": " ++ jsValToString vcl]))])))) := by
    unfold interceptRequest generateAuthorization
    simp only [hbuildS]
    rfl
  rw [hint] at hok
  have hhs : hs = setHeader (stampedHeaders keyId now c) "Authorization"
      (JsVal.str (String.mk ("Signature ".data ++ serPairs
        [("keyId", keyId), ("algorithm", "ecdsa"), ("hash", "sha256"),
         ("headers", "x-knot-date (request-target) content-type content-length"),
         ("signature", mkSig privateKey (joinSep "\n"
           ["x-knot-date" ++ ": " ++ jsValToString vd,
            "(request-target)" ++ ": " ++ strLower (jsOrStr c.method "POST") ++ " " ++
              jsOrStr c.urlPath "/",
            "content-type" ++ ": " ++ jsValToString vct,
            "content-length" ++ ": " ++ jsValToString vcl]))]))) := (Except.ok.inj hok).symm
  rw [hhs, setHeader_eq_append _ _ _ hnoauthk]
  exact check_of_wellformed privateKey keyId (jsOrStr c.method "POST") (jsOrStr c.urlPath "/")
    (stampedHeaders keyId now c) vd vct vcl hkq hvd hvct hvcl
    (stamped_no_auth_key keyId now c hauth)

set_option maxRecDepth 100000 in
/-- Witness for C1: a concrete GET to `/v1/42/ping` signed with private key
`"p"` and key id `"test-key"` verifies under the matching public key. -/
theorem sign_then_verify_roundtrip_witness :
    checkKnotEventSignature (pubOf "p")
      { headers := (interceptRequest "test-key" "p" 1700000000000 cfgPing).toOption.getD [],
        httpMethod := "GET", path := "/v1/42/ping" } = true :=
  sign_then_verify_roundtrip "p" "test-key" 1700000000000 cfgPing
    ((interceptRequest "test-key" "p" 1700000000000 cfgPing).toOption.getD [])
    (by decide) (by intro p hp; simp [cfgPing] at hp) (by rfl)

set_option maxRecDepth 100000 in
/-- C2 (code bug): the Content-Length the interceptor stamps is the
JavaScript string length of the serialized JSON body — UTF-16 code units —
not its UTF-8 byte length: on the body `{"a":"é"}` the interceptor stamps
`"9"` (9 code units) while the UTF-8 byte length is 10. -/
theorem content_length_counts_utf16_units :
    contentLengthValue (some accentBody) = 9 ∧
    (jsonStringify accentBody).utf8ByteSize = 10 ∧
    getHeaderCI ((interceptRequest "k" "p" 1700000000000
      { method := some "POST", urlPath := some "/v1/1/label", data := some accentBody,
        headers := [] }).toOption.getD []) "content-length" = some (.str "9") := by
  refine ⟨by decide, by decide, by decide⟩

/-- C3 (code bug): calling `unlockSpot` with station id `0` (or
`unlockVehicle` with vehicle id `0`) does not throw a validation error:
the JavaScript-falsy id takes the no-id branch of
`makeStationRequest`/`makeVehicleRequest`, and an HTTP request is
dispatched to the collection-level `/v1/unlock` url (observed here through
the echoing transport). -/
theorem unlock_zero_identifier_dispatches_request :
    unlockSpot echoTransport defaultOpts 0 1 1 none =
      .ok (.obj (.cons "code" (.num 0)
        (.cons "message" (.str "https://staas.knotcity.io/v1/unlock") .nil))) ∧
    unlockVehicle echoTransport defaultOpts 0 1 none =
      .ok (.obj (.cons "code" (.num 0)
        (.cons "message" (.str "https://vaas.knotcity.io/v1/unlock") .nil))) := by
  refine ⟨by decide, by decide⟩

/-- Counterexample for C9: `changeVehicleLabel` with a 51-character label
does not raise a validation error — the request is dispatched to
`/v1/1/label`. -/
theorem vehicle_label_over_50_dispatches :
    changeVehicleLabel echoTransport defaultOpts 1 label51 =
      .ok (.obj (.cons "code" (.num 0)
        (.cons "message" (.str "https://vaas.knotcity.io/v1/1/label") .nil))) ∧
    changeVehicleLabel echoTransport defaultOpts 1 label51 ≠
      .error (svaasError "The given label exceeds the authorised size (50)") := by
  refine ⟨by decide, by decide⟩

/-- C9 (amended): the station label/group setters validate the 50-character
bound (a longer label or group raises the typed validation error for every
transport, i.e. before any network call; an exactly-50-character label
proceeds to dispatch), while the vehicle label/group setters perform no
validation at all and always dispatch. -/
theorem label_length_validation_amended (t : Transport) (opts : SVaaSOptions)
    (sid vid : ℚ) (label group : String) :
    (utf16Len label > 50 → changeStationLabel t opts sid label =
      .error (svaasError "The given label exceeds the authorised size (50)")) ∧
    (utf16Len label ≤ 50 → utf16Len group > 50 →
      changeStationLabelAndGroup t opts sid label group =
        .error (svaasError "The given group exceeds the authorised size (50)")) ∧
    (utf16Len label = 50 → changeStationLabel t opts sid label =
      makeStationRequest t opts.stationsEndpoint "PUT" "v1" "label" (some sid)
        (some (.obj (.cons "label" (.str label) .nil)))) ∧
    (changeVehicleLabel t opts vid label =
      makeVehicleRequest t opts.vehiclesEndpoint "PUT" "v1" "label" (some vid)
        (some (.obj (.cons "label" (.str label) .nil)))) ∧
    (changeVehicleLabelAndGroup t opts vid label group =
      makeVehicleRequest t opts.vehiclesEndpoint "PUT" "v1" "label" (some vid)
        (some (.obj (.cons "label" (.str label) (.cons "group" (.str group) .nil))))) := by
  refine ⟨?_, ?_, ?_, rfl, rfl⟩
  · intro h
    unfold changeStationLabel
    rw [if_pos h]
  · intro h1 h2
    unfold changeStationLabelAndGroup
    rw [if_neg (by omega), if_pos h2]
  · intro h
    unfold changeStationLabel
    rw [if_neg (by omega)]

/-- Witness for C9 (amended): a 51-character label raises the validation
error; a 50-character label is accepted and dispatched. -/
theorem label_length_validation_amended_witness :
    changeStationLabel echoTransport defaultOpts 1 label51 =
      .error (svaasError "The given label exceeds the authorised size (50)") ∧
    changeStationLabel echoTransport defaultOpts 1 label50 =
      makeStationRequest echoTransport defaultOpts.stationsEndpoint "PUT" "v1" "label" (some 1)
        (some (.obj (.cons "label" (.str label50) .nil))) :=
  ⟨(label_length_validation_amended echoTransport defaultOpts 1 1 label51 "").1 (by decide),
   (label_length_validation_amended echoTransport defaultOpts 1 1 label50 "").2.2.1 (by decide)⟩

/-- C4: whenever the parsed Authorization header's declared header list
omits `x-knot-date` or omits `(request-target)`,
`checkKnotEventSignature` returns `false` — before any cryptographic
verification is attempted, hence regardless of whether the signature would
verify. -/
theorem verify_rejects_missing_declared_headers (pub : String) (ev : SignatureEvent)
    (k s : String) (pc : ParsedAuth)
    (hfind : authLookup ev.headers = some (k, .str s))
    (hparse : parseAuthorizationHeader s = .ok pc)
    (hmiss : pc.headers.contains "x-knot-date" = false ∨
      pc.headers.contains "(request-target)" = false) :
    checkKnotEventSignature pub ev = false := by
  simp only [checkKnotEventSignature, hfind, hparse]
  rcases hmiss with h | h <;> simp at h <;> simp [h]

set_option maxRecDepth 100000 in
/-- Witness for C4: an event whose Authorization header declares only
`(request-target)` and `content-type` and whose signature is
cryptographically valid over exactly that signing string (the resolved
components verify to `.ok true`) is still rejected. -/
theorem verify_rejects_missing_declared_headers_witness :
    errToFalse (verifyAuthorization
      { keyId := "k", algorithm := "ecdsa", hash := "sha256",
        headers := ["(request-target)", "content-type"], signature := mkSig "p" msgNoDate }
      { headers := evNoDate.headers, httpMethod := evNoDate.httpMethod, path := evNoDate.path }
      (pubOf "p")) = true ∧
    checkKnotEventSignature (pubOf "p") evNoDate = false :=
  ⟨by decide,
   verify_rejects_missing_declared_headers (pubOf "p") evNoDate "Authorization" authNoDate
    { keyId := "k", algorithm := some "ecdsa", hash := some "sha256",
      headers := ["(request-target)", "content-type"], signature := mkSig "p" msgNoDate }
    (by decide) (by decide) (Or.inl (by decide))⟩

/-- C5: `checkKnotEventSignature` converts every failure to the result
`false` instead of throwing (the embedding is total, the source's
try/catch being the `errToFalse` wrapper): a missing Authorization
header, a non-string Authorization value, an Authorization string the
parser rejects, and an exception raised by the verification stage itself
(here: `verifyAuthorization` erroring, e.g. because a declared header is
absent from the inbound map) each yield `false`. -/
theorem verify_malformed_returns_false (pub : String) (ev : SignatureEvent)
    (h : authLookup ev.headers = none ∨
      (∃ k v, authLookup ev.headers = some (k, v) ∧ ∀ s, v ≠ JsVal.str s) ∨
      (∃ k s e, authLookup ev.headers = some (k, JsVal.str s) ∧
        parseAuthorizationHeader s = .error e) ∨
      (∃ k s pc e, authLookup ev.headers = some (k, JsVal.str s) ∧
        parseAuthorizationHeader s = .ok pc ∧
        verifyAuthorization (resolveComponents pc)
          { headers := ev.headers, httpMethod := ev.httpMethod, path := ev.path } pub =
          .error e)) :
    checkKnotEventSignature pub ev = false := by
  rcases h with h | ⟨k, v, hfind, hnv⟩ | ⟨k, s, e, hfind, herr⟩ | ⟨k, s, pc, e, hfind, hok, herr⟩
  · simp [checkKnotEventSignature, h]
  · cases v with
    | str a => exact absurd rfl (hnv a)
    | num q => simp [checkKnotEventSignature, hfind]
    | boolean b => simp [checkKnotEventSignature, hfind]
    | jsNull => simp [checkKnotEventSignature, hfind]
    | undefined => simp [checkKnotEventSignature, hfind]
    | obj fs => simp [checkKnotEventSignature, hfind]
  · simp only [checkKnotEventSignature, hfind, herr]
  · simp only [checkKnotEventSignature, hfind, hok]
    by_cases hc : (!(pc.headers.contains "x-knot-date") ||
        !(pc.headers.contains "(request-target)")) = true
    · rw [if_pos hc]
    · rw [if_neg hc, herr]
      rfl

/-- Witness for C5: the malformed Authorization value
`Signature keyId=oops` (no quotes) makes the parser fail, and a
well-formed header whose declared `content-type` is absent from the
inbound header map makes the verification stage throw; both cases return
`false`. -/
theorem verify_malformed_returns_false_witness :
    checkKnotEventSignature "pub" evMalformed = false ∧
    checkKnotEventSignature "pub" evMissingHdr = false :=
  ⟨verify_malformed_returns_false "pub" evMalformed
    (Or.inr (Or.inr (Or.inl ⟨"authorization", "Signature keyId=oops",
      "malformed authorization header", by decide, by decide⟩))),
   verify_malformed_returns_false "pub" evMissingHdr
    (Or.inr (Or.inr (Or.inr ⟨"authorization", authMissingHdr,
      { keyId := "k", algorithm := some "ecdsa", hash := some "sha256",
        headers := ["x-knot-date", "(request-target)", "content-type"], signature := "xyz" },
      "missing signed header", by decide, by decide, by decide⟩)))⟩

/-- C7: when the parsed Authorization components lack both the algorithm
and the hash field, `checkKnotEventSignature` performs the cryptographic
verification with the defaults `ecdsa`/`sha256`. -/
theorem verify_defaults_absent_algorithm_and_hash (pub : String) (ev : SignatureEvent)
    (k s : String) (pc : ParsedAuth)
    (hfind : authLookup ev.headers = some (k, .str s))
    (hparse : parseAuthorizationHeader s = .ok pc)
    (halg : pc.algorithm = none) (hhash : pc.hash = none)
    (hd1 : pc.headers.contains "x-knot-date" = true)
    (hd2 : pc.headers.contains "(request-target)" = true) :
    checkKnotEventSignature pub ev = errToFalse (verifyAuthorization
      { keyId := pc.keyId, algorithm := "ecdsa", hash := "sha256",
        headers := pc.headers, signature := pc.signature }
      { headers := ev.headers, httpMethod := ev.httpMethod, path := ev.path } pub) := by
  simp only [checkKnotEventSignature, hfind, hparse, hd1, hd2, Bool.not_true, Bool.or_self,
    Bool.or_false, if_false]
  simp [resolveComponents, halg, hhash, optTruthy]

set_option maxRecDepth 100000 in
/-- Witness for C7: a header with no algorithm/hash fields is verified with
the defaulted components (and here the signature `"xyz"` does not match,
so the result is `false` on both sides). -/
theorem verify_defaults_absent_algorithm_and_hash_witness :
    checkKnotEventSignature "pub" evNoAlg = errToFalse (verifyAuthorization
      { keyId := "k", algorithm := "ecdsa", hash := "sha256",
        headers := ["x-knot-date", "(request-target)"], signature := "xyz" }
      { headers := evNoAlg.headers, httpMethod := evNoAlg.httpMethod, path := evNoAlg.path }
      "pub") ∧
    checkKnotEventSignature "pub" evNoAlg = false :=
  ⟨verify_defaults_absent_algorithm_and_hash "pub" evNoAlg "authorization" authNoAlg
      { keyId := "k", algorithm := none, hash := none,
        headers := ["x-knot-date", "(request-target)"], signature := "xyz" }
      (by decide) (by decide) rfl rfl (by decide) (by decide),
   by decide⟩

/-- C10 (implicit): whenever the hash field is absent — even if the header
declares a (possibly non-default) algorithm — BOTH components are
overwritten, and the verification runs with `ecdsa`/`sha256`, discarding
the declared algorithm. -/
theorem either_missing_field_defaults_both (pub : String) (ev : SignatureEvent)
    (k s : String) (pc : ParsedAuth)
    (hfind : authLookup ev.headers = some (k, .str s))
    (hparse : parseAuthorizationHeader s = .ok pc)
    (hhash : pc.hash = none)
    (hd1 : pc.headers.contains "x-knot-date" = true)
    (hd2 : pc.headers.contains "(request-target)" = true) :
    checkKnotEventSignature pub ev = errToFalse (verifyAuthorization
      { keyId := pc.keyId, algorithm := "ecdsa", hash := "sha256",
        headers := pc.headers, signature := pc.signature }
      { headers := ev.headers, httpMethod := ev.httpMethod, path := ev.path } pub) := by
  simp only [checkKnotEventSignature, hfind, hparse, hd1, hd2, Bool.not_true, Bool.or_self,
    Bool.or_false, if_false]
  simp [resolveComponents, hhash, optTruthy]

set_option maxRecDepth 100000 in
/-- Witness for C10: a header declaring `algorithm="rsa"` with no hash
field, whose signature is the `ecdsa`/`sha256` signature of the signing
string under the key pair of `"p"`, VERIFIES: the declared `rsa` is
discarded and the event is accepted. -/
theorem either_missing_field_defaults_both_witness :
    checkKnotEventSignature (pubOf "p") evRsa = errToFalse (verifyAuthorization
      { keyId := "k", algorithm := "ecdsa", hash := "sha256",
        headers := ["x-knot-date", "(request-target)"], signature := mkSig "p" msgRsa }
      { headers := evRsa.headers, httpMethod := evRsa.httpMethod, path := evRsa.path }
      (pubOf "p")) ∧
    checkKnotEventSignature (pubOf "p") evRsa = true :=
  ⟨either_missing_field_defaults_both (pubOf "p") evRsa "authorization" authRsa
      { keyId := "k", algorithm := some "rsa", hash := none,
        headers := ["x-knot-date", "(request-target)"], signature := mkSig "p" msgRsa }
      (by decide) (by decide) rfl (by decide) (by decide),
   by decide⟩

/-- C6: the error taxonomy of an API call: a rejected dispatch propagates
as the axios error carrying the request (with its url and payload); a 200
response body lacking the `code` field is rethrown as an
`SVaaSRequestError` carrying the url and payload; a validation failure
(here: a non-integer spot id in `unlockSpot`) produces the typed
`SVaaSError` for every transport, i.e. synchronously before any network
I/O. -/
theorem error_taxonomy (t : Transport) (m url : String) (d : Option JsVal) (body : JsVal)
    (opts : SVaaSOptions) (sid spotId unlockId : ℚ) (x : Option Bool) :
    (t { method := m, url := url, data := d } = .fail →
      makeRequest t m url d = .error (.axiosFail { method := m, url := url, data := d })) ∧
    (t { method := m, url := url, data := d } = .ok body →
      jsGetField body "code" = .undefined →
      makeRequest t m url d = .error (svaasRequestError
        ("Request return an error: " ++ jsonStringify body) url d)) ∧
    (ratIsInteger spotId = false →
      unlockSpot t opts sid spotId unlockId x =
        .error (svaasError "Spot ID should be an integer greater or equal to 1")) := by
  refine ⟨?_, ?_, ?_⟩
  · intro hfail
    unfold makeRequest
    rw [hfail]
  · intro hok hcode
    unfold makeRequest
    rw [hok]
    simp [hcode]
  · intro hni
    unfold unlockSpot
    simp [hni]

/-- Witness for C6: each of the three error modes at a concrete input. -/
theorem error_taxonomy_witness :
    makeRequest failTransport "POST" "https://staas.knotcity.io/v1/1/reboot" none =
      .error (.axiosFail
        { method := "POST", url := "https://staas.knotcity.io/v1/1/reboot", data := none }) ∧
    makeRequest (fun _ => .ok (.str "oops")) "POST" "u" none =
      .error (svaasRequestError ("Request return an error: " ++ jsonStringify (.str "oops"))
        "u" none) ∧
    unlockSpot failTransport defaultOpts 1 halfQ 1 none =
      .error (svaasError "Spot ID should be an integer greater or equal to 1") :=
  ⟨(error_taxonomy failTransport "POST" "https://staas.knotcity.io/v1/1/reboot" none
      (.str "oops") defaultOpts 1 1 1 none).1 rfl,
   (error_taxonomy (fun _ => .ok (.str "oops")) "POST" "u" none
      (.str "oops") defaultOpts 1 1 1 none).2.1 rfl rfl,
   (error_taxonomy failTransport "POST" "u" none
      (.str "oops") defaultOpts 1 halfQ 1 none).2.2 (by decide)⟩

/-- An endpoint option check only ever fails with an `SVaaSError`. -/
theorem checkEndpoint_error_svaas (v : JsVal) (what : String) (e : SdkError)
    (h : checkEndpoint v what = .error e) : ∃ m, e = .svaas m := by
  cases v with
  | undefined => exact absurd h (by simp [checkEndpoint])
  | str s =>
    simp only [checkEndpoint] at h
    by_cases hlen : utf16Len s < 3
    · rw [if_pos hlen] at h
      exact ⟨_, (Except.error.inj h).symm⟩
    · rw [if_neg hlen] at h
      by_cases hsl : s.data.getLast? = some '/'
      · rw [if_pos hsl] at h; cases h
      · rw [if_neg hsl] at h; cases h
  | num q => exact ⟨_, (Except.error.inj h).symm⟩
  | boolean b => exact ⟨_, (Except.error.inj h).symm⟩
  | jsNull => exact ⟨_, (Except.error.inj h).symm⟩
  | obj fs => exact ⟨_, (Except.error.inj h).symm⟩

/-- A successful endpoint option check means the option was `undefined` or
a string of at least 3 UTF-16 units. -/
theorem checkEndpoint_ok_shape (v : JsVal) (what : String) (r : Option String)
    (h : checkEndpoint v what = .ok r) :
    v = .undefined ∨ ∃ s, v = .str s ∧ ¬ utf16Len s < 3 := by
  cases v with
  | undefined => exact Or.inl rfl
  | str s =>
    refine Or.inr ⟨s, rfl, ?_⟩
    intro hlen
    simp only [checkEndpoint] at h
    rw [if_pos hlen] at h
    cases h
  | num q => cases h
  | boolean b => cases h
  | jsNull => cases h
  | obj fs => cases h

/-- C8: every invalid options value — wrong `typeof`, a non-string or
too-short endpoint, a missing or non-string `keyId` or `privateKey` —
makes the constructor fail synchronously with an `SVaaSError`
(configuration error), before any request can be made.  `null` is
excluded: its `typeof` is `object` and JavaScript raises a `TypeError` on
the first property access instead. -/
theorem constructor_rejects_invalid_options (o : JsVal)
    (hnn : o ≠ JsVal.jsNull)
    (h : jsTypeof o ≠ "object" ∨
      (jsGetField o "stationsEndpoint" ≠ .undefined ∧
        ∀ s, jsGetField o "stationsEndpoint" ≠ .str s) ∨
      (∃ s, jsGetField o "stationsEndpoint" = .str s ∧ utf16Len s < 3) ∨
      (jsGetField o "vehiclesEndpoint" ≠ .undefined ∧
        ∀ s, jsGetField o "vehiclesEndpoint" ≠ .str s) ∨
      (∃ s, jsGetField o "vehiclesEndpoint" = .str s ∧ utf16Len s < 3) ∨
      (∀ s, jsGetField o "keyId" ≠ .str s) ∨
      (∀ s, jsGetField o "privateKey" ≠ .str s)) :
    isSvaasError (mkKnotSVaaS o) = true := by
  unfold mkKnotSVaaS
  by_cases hobj : jsTypeof o ≠ "object"
  · rw [if_pos hobj]
    rfl
  rw [if_neg hobj, if_neg hnn]
  split
  next e he =>
    obtain ⟨m, rfl⟩ := checkEndpoint_error_svaas _ _ _ he
    rfl
  next se hse =>
    split
    next e he =>
      obtain ⟨m, rfl⟩ := checkEndpoint_error_svaas _ _ _ he
      rfl
    next ve hve =>
      split
      next k hk2 =>
        split
        next pk hpk2 =>
          exfalso
          rcases h with hobj2 | ⟨hne, hns⟩ | ⟨s3, hs3, hlen⟩ | ⟨hne, hns⟩ | ⟨s3, hs3, hlen⟩
            | hbad | hbad
          · exact hobj hobj2
          · rcases checkEndpoint_ok_shape _ _ _ hse with h1 | ⟨s, hs, _⟩
            · exact hne h1
            · exact hns s hs
          · rcases checkEndpoint_ok_shape _ _ _ hse with h1 | ⟨s, hs, hlen2⟩
            · rw [h1] at hs3; cases hs3
            · rw [hs] at hs3
              cases hs3
              exact hlen2 hlen
          · rcases checkEndpoint_ok_shape _ _ _ hve with h1 | ⟨s, hs, _⟩
            · exact hne h1
            · exact hns s hs
          · rcases checkEndpoint_ok_shape _ _ _ hve with h1 | ⟨s, hs, hlen2⟩
            · rw [h1] at hs3; cases hs3
            · rw [hs] at hs3
              cases hs3
              exact hlen2 hlen
          · exact hbad k hk2
          · exact hbad pk hpk2
        next v hnotstr => rfl
      next v hnotstr => rfl

/-- Witness for C8: a numeric options value, an options object whose
stations endpoint is too short, and an options object missing `keyId` each
make the constructor throw a configuration error. -/
theorem constructor_rejects_invalid_options_witness :
    isSvaasError (mkKnotSVaaS (.num 5)) = true ∧
    isSvaasError (mkKnotSVaaS (.obj (.cons "stationsEndpoint" (.str "ab")
      (.cons "keyId" (.str "k") (.cons "privateKey" (.str "p") .nil))))) = true ∧
    isSvaasError (mkKnotSVaaS (.obj (.cons "privateKey" (.str "p") .nil))) = true :=
  ⟨constructor_rejects_invalid_options (.num 5) (by decide) (Or.inl (by decide)),
   constructor_rejects_invalid_options _ (by decide)
     (Or.inr (Or.inr (Or.inl ⟨"ab", by decide, by decide⟩))),
   constructor_rejects_invalid_options _ (by decide)
     (Or.inr (Or.inr (Or.inr (Or.inr (Or.inr (Or.inl
       (fun s hs => JsVal.noConfusion hs)))))))⟩

end SVaaS
